import Mathlib

/-!
# Verification of the cointoss wagering game engine

Shallow embedding of the game engine of `examples/cointoss` (`game.ts`,
`types.ts`, `walletService.ts`, and the storage provider) together with
proofs of the specification's claims about it.

Modelling conventions:
* TypeScript objects become Lean structures; optional fields become `Option`
  (except `coinTossResult` and `paymentSuccess`, which `createGame` always
  initialises to `""` and `false`).
* `async` storage calls become explicit lists of the records passed to
  `storage.updateGame`, in call order.
* USDC amounts (`parseFloat` results) become `ℚ`; an unparseable string
  (JS `NaN`) becomes `none`.
* The wallet SDK is an oracle: each winner's transfer attempt is mapped by an
  oracle function to its outcome (object returned after a given wait outcome,
  `undefined` returned, wallet lookup failed, or an exception).
* Randomness (`crypto.randomBytes` / `Date.now`) becomes the `randomValue`
  argument; the code reduces it mod `options.length` exactly as the source
  does.
-/

/-- `GameStatus` from `types.ts`. -/
inductive GameStatus
  | CREATED
  | WAITING_FOR_PLAYER
  | READY
  | IN_PROGRESS
  | COMPLETED
  | CANCELLED
deriving DecidableEq, Repr

/-- `Participant` from `types.ts`: a participant id with the outcome label
they chose. -/
structure Participant where
  userId : String
  option : String
deriving DecidableEq, Repr

/-- `CoinTossGame` from `types.ts`.  `coinTossResult` and `paymentSuccess`
are optional in TypeScript but always initialised by `createGame`, so they
are plain fields here. -/
structure CoinTossGame where
  id : String
  creator : String
  betAmount : String
  status : GameStatus
  participants : List String
  participantOptions : List Participant
  winner : Option String
  walletAddress : String
  createdAt : Nat
  coinTossResult : String
  paymentSuccess : Bool
  transactionLink : Option String
  betTopic : Option String
  betOptions : Option (List String)
deriving DecidableEq, Repr

/-- The record built by `GameManager.createGame` (game.ts lines 56-67):
a fresh wager in status `CREATED` with no participants. -/
def createGame (gameId creator betAmount walletAddress : String) (now : Nat) :
    CoinTossGame :=
  { id := gameId
    creator := creator
    betAmount := betAmount
    status := GameStatus.CREATED
    participants := []
    participantOptions := []
    winner := none
    walletAddress := walletAddress
    createdAt := now
    coinTossResult := ""
    paymentSuccess := false
    transactionLink := none
    betTopic := none
    betOptions := none }

/-- ASCII lowercasing of a string (models JS `toLowerCase()` on the ASCII
labels the engine compares; a structurally recursive version of
`String.toLower`). -/
def toLowerStr (s : String) : String := ⟨s.data.map Char.toLower⟩

/-- Split a character list at every `'.'` (a structurally recursive version
of `String.splitOn "."`). -/
def splitOnDot (cs : List Char) : List (List Char) :=
  match cs with
  | [] => [[]]
  | c :: rest =>
    let r := splitOnDot rest
    if c = '.' then [] :: r
    else
      match r with
      | [] => [[c]]
      | h :: t => (c :: h) :: t

/-- Value of a list of decimal digit characters, most significant first. -/
def decDigits (cs : List Char) : Option Nat :=
  if cs.isEmpty || !cs.all Char.isDigit then none
  else some (cs.foldl (fun a c => a * 10 + (c.toNat - 48)) 0)

/-- Models JS `parseFloat` on the nonnegative decimal strings the engine
uses as bet amounts: `none` models `NaN`. -/
def parseDecimal (s : String) : Option ℚ :=
  match splitOnDot s.data with
  | [intPart] => (decDigits intPart).map (fun n => (n : ℚ))
  | [intPart, fracPart] =>
      match decDigits intPart, decDigits fracPart with
      | some i, some f =>
          some ((i : ℚ) + (f : ℚ) / (10 : ℚ) ^ fracPart.length)
      | _, _ => none
  | _ => none

/-- One insertion into a JS `Set` (first-insertion order preserved). -/
def insertUnique (seen : List String) (x : String) : List String :=
  if x ∈ seen then seen else seen ++ [x]

/-- game.ts lines 279-281: the distinct options actually chosen by
participants, in first-insertion order (a JS `Set` built by `forEach`). -/
def uniqueOptions (ps : List Participant) : List String :=
  ps.foldl (fun acc p => insertUnique acc p.option) []

/-- game.ts lines 274-282: the effective option set used for the toss —
the declared `betOptions` when present and nonempty, otherwise the distinct
options chosen by participants. -/
def effectiveOptions (g : CoinTossGame) : List String :=
  match g.betOptions with
  | some bo => if bo.length > 0 then bo else uniqueOptions g.participantOptions
  | none => uniqueOptions g.participantOptions

/-- game.ts lines 296-300: the winning option selected by the toss, given
the random value (`options[randomValue % options.length]`). -/
def pickedOption (g : CoinTossGame) (randomValue : Nat) : String :=
  (effectiveOptions g).getD (randomValue % (effectiveOptions g).length) ""

/-- game.ts lines 307-309: the participants whose chosen option matches the
winning option, case-insensitively. -/
def winnersOf (g : CoinTossGame) (winningOption : String) : List Participant :=
  g.participantOptions.filter
    (fun p => toLowerStr p.option == toLowerStr winningOption)

/-- How the `transfer.wait()` call in `walletService.transfer`
(walletService.ts lines 396-406) ended. -/
inductive WaitOutcome
  | completed
  | timedOut
  | otherError
deriving DecidableEq, Repr

/-- Outcome of one winner-payout attempt inside `executeCoinToss`
(game.ts lines 346-397), as seen by the engine:
* `returned w` — `walletService.transfer` created the transfer and returned
  the transfer object (walletService.ts returns it after `wait()` completes,
  times out, or errors, so `w` records how the wait ended); this outcome
  presupposes the amount passed the falsy-amount guard, which `payoutStep`
  enforces;
* `returnedNone` — `walletService.transfer` returned `undefined`
  (validation or balance failure);
* `walletMissing` — `getWallet(winner.userId)` returned no wallet data;
* `threw` — an exception propagated to the per-winner `catch`. -/
inductive TransferOutcome
  | returned (w : WaitOutcome)
  | returnedNone
  | walletMissing
  | threw
deriving DecidableEq, Repr

/-- Accumulator of the per-winner payout loop (game.ts lines 332-404). -/
structure PayoutState where
  allOk : Bool
  successes : List String
  calls : List (String × Option ℚ)
  link : Option String
deriving DecidableEq, Repr

/-- One iteration of the payout loop (game.ts lines 346-398).  A call to
`walletService.transfer` with amount `prize` is made whenever the winner's
wallet address was found; before any transfer object is created,
`walletService.transfer` checks `if (!Number(amount)) return undefined`
(walletService.ts lines 349-352), so a falsy amount — `NaN` (`none`) or `0`
— deterministically yields `undefined` whatever the wallet oracle says, and
only with a truthy amount does the oracle's outcome apply.  Success is
recorded iff the call returned a truthy object; the transaction link is
extracted from the first successful transfer. -/
def payoutStep (prize : Option ℚ) (oracle : String → TransferOutcome)
    (linkOracle : String → Option String) (st : PayoutState) (w : Participant) :
    PayoutState :=
  match oracle w.userId with
  | TransferOutcome.walletMissing =>
      { st with allOk := false }
  | TransferOutcome.returned _ =>
      if prize = none ∨ prize = some 0 then
        { st with allOk := false, calls := st.calls ++ [(w.userId, prize)] }
      else
        { st with
          successes := st.successes ++ [w.userId]
          calls := st.calls ++ [(w.userId, prize)]
          link := match st.link with
            | some l => some l
            | none => linkOracle w.userId }
  | TransferOutcome.returnedNone =>
      { st with allOk := false, calls := st.calls ++ [(w.userId, prize)] }
  | TransferOutcome.threw =>
      { st with allOk := false }

/-- Result of a successful `executeCoinToss` run: the records passed to
`storage.updateGame` in order, the transfer calls issued (winner id and
amount), and the returned game. -/
structure TossResult where
  stored : List CoinTossGame
  transferCalls : List (String × Option ℚ)
  game : CoinTossGame
deriving DecidableEq, Repr

/-- `GameManager.executeCoinToss` (game.ts lines 228-416).  `g?` is what
`storage.getGame` returned; `randomValue` models the random draw of line
298; `gameWalletOk` models whether `getWallet` found the game wallet;
`oracle` gives each winner's transfer outcome and `linkOracle` the
transaction link carried by their transfer object.  Thrown errors become
`Except.error` with the thrown message. -/
def executeCoinToss (g? : Option CoinTossGame) (randomValue : Nat)
    (gameWalletOk : Bool) (oracle : String → TransferOutcome)
    (linkOracle : String → Option String) : Except String TossResult :=
  match g? with
  | none => Except.error "Game not found"
  | some game =>
    if game.status ≠ GameStatus.WAITING_FOR_PLAYER then
      Except.error "Game is not ready for coin toss"
    else if game.participants.length < 2 then
      Except.error "Game needs at least 2 players"
    else
      let totalPot := (parseDecimal game.betAmount).map
        (fun q => q * (game.participants.length : ℚ))
      let g1 := { game with status := GameStatus.IN_PROGRESS }
      if g1.participants.length = 0 then
        let g2 := { g1 with status := GameStatus.CANCELLED, paymentSuccess := false }
        Except.ok ⟨[g1, g2], [], g2⟩
      else if g1.participantOptions.length = 0 then
        let g2 := { g1 with status := GameStatus.CANCELLED, paymentSuccess := false }
        Except.ok ⟨[g1, g2], [], g2⟩
      else
        let options := effectiveOptions g1
        if options.length < 2 then
          let g2 := { g1 with status := GameStatus.CANCELLED, paymentSuccess := false }
          Except.ok ⟨[g1, g2], [], g2⟩
        else
          let winningOption := options.getD (randomValue % options.length) ""
          let g2 := { g1 with coinTossResult := winningOption }
          let winners := winnersOf g2 winningOption
          if winners.length = 0 then
            let g3 := { g2 with status := GameStatus.CANCELLED, paymentSuccess := false }
            Except.ok ⟨[g1, g3], [], g3⟩
          else
            let prizePerWinner := totalPot.map (fun q => q / (winners.length : ℚ))
            let g3 := { g2 with
              status := GameStatus.COMPLETED
              winner := some (String.intercalate "," (winners.map Participant.userId)) }
            if gameWalletOk = false then
              let g4 := { g3 with paymentSuccess := false }
              Except.ok ⟨[g1, g4], [], g4⟩
            else
              let final := winners.foldl (payoutStep prizePerWinner oracle linkOracle)
                ⟨true, [], [], g3.transactionLink⟩
              let g4 := { g3 with
                paymentSuccess := final.allOk
                transactionLink := final.link }
              Except.ok ⟨[g1, g4], final.calls, g4⟩

/-- `GameManager.addPlayerToGame` (game.ts lines 86-136).  Returns the
engine's result together with the list of records passed to
`storage.updateGame` (empty on every error path: all validation precedes
the single write). -/
def addPlayerToGame (g? : Option CoinTossGame) (player chosenOption : String)
    (hasPaid : Bool) : Except String CoinTossGame × List CoinTossGame :=
  match g? with
  | none => (Except.error "Game not found", [])
  | some game =>
    if game.status ≠ GameStatus.CREATED ∧ game.status ≠ GameStatus.WAITING_FOR_PLAYER then
      (Except.error "Game is not accepting players", [])
    else if player ∈ game.participants then
      (Except.error "You are already in this game", [])
    else if hasPaid = false then
      (Except.error ("Please pay " ++ game.betAmount ++ " USDC to join the game"), [])
    else
      let invalidOption :=
        match game.betOptions with
        | some bo => bo.length > 0 && !((bo.map toLowerStr).contains (toLowerStr chosenOption))
        | none => false
      if invalidOption then
        (Except.error ("Invalid option: " ++ chosenOption), [])
      else
        let g1 := { game with
          participants := game.participants ++ [player]
          participantOptions := game.participantOptions ++ [⟨player, chosenOption⟩] }
        let g2 :=
          if g1.participants.length = 1 then
            { g1 with status := GameStatus.WAITING_FOR_PLAYER }
          else if 2 ≤ g1.participants.length then
            { g1 with status := GameStatus.WAITING_FOR_PLAYER }
          else g1
        (Except.ok g2, [g2])

/-- `GameManager.cancelGame` (game.ts lines 426-439), with the records
passed to `storage.updateGame`. -/
def cancelGame (g? : Option CoinTossGame) :
    Except String CoinTossGame × List CoinTossGame :=
  match g? with
  | none => (Except.error "Game not found", [])
  | some game =>
    if game.status = GameStatus.COMPLETED then
      (Except.error "Cannot cancel completed game", [])
    else
      let g1 := { game with status := GameStatus.CANCELLED }
      (Except.ok g1, [g1])

/-- Models JS `parseInt` on the id strings the engine produces: the value of
the longest digit prefix, `none` (`NaN`) when there is none. -/
def parseIntOpt (s : String) : Option Nat :=
  let ds := s.data.takeWhile Char.isDigit
  if ds.isEmpty then none
  else some (ds.foldl (fun a c => a * 10 + (c.toNat - 48)) 0)

/-- `LocalStorageProvider.listActiveGames` / `RedisStorageProvider.listActiveGames`
(storage provider): all stored games whose status is neither `COMPLETED` nor
`CANCELLED`. -/
def listActiveGames (storage : List CoinTossGame) : List CoinTossGame :=
  storage.filter (fun g =>
    !(g.status == GameStatus.COMPLETED) && !(g.status == GameStatus.CANCELLED))

/-- `GameManager.initializeLastGameId` (game.ts lines 20-26): fold over the
listed games, keeping the largest numeric id (`NaN` ids skipped), starting
from 0. -/
def initLastGameId (games : List CoinTossGame) : Nat :=
  games.foldl (fun maxId g =>
    match parseIntOpt g.id with
    | none => maxId
    | some id => max maxId id) 0

/-- `GameManager.getNextGameId` (game.ts lines 28-30): increment the counter
and return its string form, together with the new counter. -/
def getNextGameId (lastGameId : Nat) : Nat × String :=
  (lastGameId + 1, toString (lastGameId + 1))

/-- The spec's words for C7 (a refinement comparison, not source code): the
first id assigned after initialisation, had the maximum been taken over ALL
known wagers rather than the active ones. -/
def specFirstIdAllWagers (storage : List CoinTossGame) : String :=
  (getNextGameId (initLastGameId storage)).2

/-- What the source actually does for the first id after initialisation:
the maximum is taken over `listActiveGames` only. -/
def sourceFirstId (storage : List CoinTossGame) : String :=
  (getNextGameId (initLastGameId (listActiveGames storage))).2

deriving instance DecidableEq for Except

/-! ## Example inputs used by witnesses and counterexamples -/

/-- Concrete two-player wager: stake 5 USDC, declared options heads/tails,
alice chose "Heads" (mixed case), bob chose "tails". -/
def exGame : CoinTossGame :=
  { createGame "1" "alice" "5" "0xGAME" 0 with
    status := GameStatus.WAITING_FOR_PLAYER
    participants := ["alice", "bob"]
    participantOptions := [⟨"alice", "Heads"⟩, ⟨"bob", "tails"⟩]
    betOptions := some ["heads", "tails"] }

/-- `exGame` already resolved. -/
def exCompleted : CoinTossGame := { exGame with status := GameStatus.COMPLETED }

/-- `exGame` already cancelled. -/
def exCancelled : CoinTossGame := { exGame with status := GameStatus.CANCELLED }

/-- `exGame` with an unparseable bet amount (JS `NaN`). -/
def exGameX : CoinTossGame := { exGame with betAmount := "abc" }

/-- Wallet oracle where every transfer's `wait()` completes normally. -/
def allCompleted : String → TransferOutcome :=
  fun _ => TransferOutcome.returned WaitOutcome.completed

/-- Wallet oracle where every transfer's `wait()` times out (the SDK raises
`TimeoutError`, `walletService.transfer` logs and still returns the transfer
object). -/
def allTimedOut : String → TransferOutcome :=
  fun _ => TransferOutcome.returned WaitOutcome.timedOut

/-- Link oracle carrying no transaction link. -/
def noLink : String → Option String := fun _ => none

/-! ## Helper lemmas -/

theorem toss_not_waiting (g : CoinTossGame) (rv : Nat) (gw : Bool)
    (oracle : String → TransferOutcome) (lo : String → Option String)
    (h : g.status ≠ GameStatus.WAITING_FOR_PLAYER) :
    executeCoinToss (some g) rv gw oracle lo =
      Except.error "Game is not ready for coin toss" := by
  unfold executeCoinToss
  simp [h]

theorem toss_too_few (g : CoinTossGame) (rv : Nat) (gw : Bool)
    (oracle : String → TransferOutcome) (lo : String → Option String)
    (hst : g.status = GameStatus.WAITING_FOR_PLAYER)
    (h : g.participants.length < 2) :
    executeCoinToss (some g) rv gw oracle lo =
      Except.error "Game needs at least 2 players" := by
  unfold executeCoinToss
  simp [hst, h]

theorem toss_ok_of_gates (g : CoinTossGame) (rv : Nat) (gw : Bool)
    (oracle : String → TransferOutcome) (lo : String → Option String)
    (hst : g.status = GameStatus.WAITING_FOR_PLAYER)
    (hn : 2 ≤ g.participants.length) :
    ∃ r, executeCoinToss (some g) rv gw oracle lo = Except.ok r := by
  simp only [executeCoinToss]
  rw [if_neg (by simp [hst]), if_neg (by omega)]
  repeat first
  | exact ⟨_, rfl⟩
  | split

theorem toss_preserves_participants (g : CoinTossGame) (rv : Nat) (gw : Bool)
    (oracle : String → TransferOutcome) (lo : String → Option String) (r : TossResult)
    (h : executeCoinToss (some g) rv gw oracle lo = Except.ok r) :
    (∀ s ∈ r.stored,
      s.participants = g.participants ∧ s.participantOptions = g.participantOptions) ∧
    r.game.participants = g.participants ∧
    r.game.participantOptions = g.participantOptions := by
  simp only [executeCoinToss] at h
  repeat' split at h
  all_goals cases h
  all_goals simp

theorem addPlayer_shape (g? : Option CoinTossGame) (p o : String) (paid : Bool) :
    (∃ e, addPlayerToGame g? p o paid = (Except.error e, [])) ∨
    (∃ g2, addPlayerToGame g? p o paid = (Except.ok g2, [g2])) := by
  cases g?
  · exact Or.inl ⟨_, rfl⟩
  · simp only [addPlayerToGame]
    repeat first
    | exact Or.inl ⟨_, rfl⟩
    | exact Or.inr ⟨_, rfl⟩
    | split

theorem addPlayer_error_no_write (g? : Option CoinTossGame) (p o : String) (paid : Bool)
    (e : String) (h : (addPlayerToGame g? p o paid).1 = Except.error e) :
    (addPlayerToGame g? p o paid).2 = [] := by
  rcases addPlayer_shape g? p o paid with ⟨e2, he⟩ | ⟨g2, hg⟩
  · rw [he]
  · rw [hg] at h
    simp at h

/-! ## Claim theorems -/

/-- C3.  `resolveWager` (here `executeCoinToss`) fails unless the wager is
in `WAITING_FOR_PLAYER` with at least two participants: outside that gate it
returns one of the two invalid-state errors, inside the gate it always
succeeds; in particular a second call on a `COMPLETED` wager always fails
with the invalid-state error. -/
theorem resolve_only_when_waiting_with_two (g : CoinTossGame) (rv : Nat) (gw : Bool)
    (oracle : String → TransferOutcome) (lo : String → Option String) :
    (g.status ≠ GameStatus.WAITING_FOR_PLAYER ∨ g.participants.length < 2 →
      ∃ e, executeCoinToss (some g) rv gw oracle lo = Except.error e ∧
        (e = "Game is not ready for coin toss" ∨ e = "Game needs at least 2 players")) ∧
    (g.status = GameStatus.WAITING_FOR_PLAYER → 2 ≤ g.participants.length →
      ∃ r, executeCoinToss (some g) rv gw oracle lo = Except.ok r) ∧
    (g.status = GameStatus.COMPLETED →
      executeCoinToss (some g) rv gw oracle lo =
        Except.error "Game is not ready for coin toss") := by
  refine ⟨?_, ?_, ?_⟩
  · intro h
    by_cases hst : g.status = GameStatus.WAITING_FOR_PLAYER
    · rcases h with h | h
      · exact absurd hst h
      · exact ⟨_, toss_too_few g rv gw oracle lo hst h, Or.inr rfl⟩
    · exact ⟨_, toss_not_waiting g rv gw oracle lo hst, Or.inl rfl⟩
  · exact fun hst hn => toss_ok_of_gates g rv gw oracle lo hst hn
  · intro hst
    exact toss_not_waiting g rv gw oracle lo (by simp [hst])

/-- Witness for C3: the example completed wager cannot be resolved again. -/
theorem resolve_only_when_waiting_with_two_witness :
    executeCoinToss (some exCompleted) 0 true allCompleted noLink =
      Except.error "Game is not ready for coin toss" :=
  (resolve_only_when_waiting_with_two exCompleted 0 true allCompleted noLink).2.2 rfl

/-- C4.  `joinWager` (here `addPlayerToGame`) on a `COMPLETED` or
`CANCELLED` wager always fails with the invalid-state error and performs no
write; and every error result of `addPlayerToGame` performs no write (all
validation precedes the single `updateGame`). -/
theorem join_terminal_rejected_no_mutation (g : CoinTossGame) (p o : String) (paid : Bool)
    (h : g.status = GameStatus.COMPLETED ∨ g.status = GameStatus.CANCELLED) :
    addPlayerToGame (some g) p o paid =
      (Except.error "Game is not accepting players", []) ∧
    (∀ gg : CoinTossGame, ∀ p2 o2 : String, ∀ paid2 : Bool, ∀ e : String,
      (addPlayerToGame (some gg) p2 o2 paid2).1 = Except.error e →
      (addPlayerToGame (some gg) p2 o2 paid2).2 = []) := by
  constructor
  · rcases h with h | h <;> simp [addPlayerToGame, h]
  · intro gg p2 o2 paid2 e he
    exact addPlayer_error_no_write (some gg) p2 o2 paid2 e he

/-- Witness for C4: joining the example completed wager fails and writes
nothing. -/
theorem join_terminal_rejected_no_mutation_witness :
    addPlayerToGame (some exCompleted) "carol" "heads" true =
      (Except.error "Game is not accepting players", []) :=
  (join_terminal_rejected_no_mutation exCompleted "carol" "heads" true (Or.inl rfl)).1

/-- C6.  A wager whose status is `COMPLETED` or `CANCELLED` is immutable:
`addPlayerToGame` and `executeCoinToss` fail without writing, and every
record `cancelGame` writes equals the stored one. -/
theorem terminal_wager_immutable (g : CoinTossGame)
    (h : g.status = GameStatus.COMPLETED ∨ g.status = GameStatus.CANCELLED) :
    (∀ p o : String, ∀ paid : Bool,
      addPlayerToGame (some g) p o paid =
        (Except.error "Game is not accepting players", [])) ∧
    (∀ rv : Nat, ∀ gw : Bool, ∀ oracle : String → TransferOutcome,
      ∀ lo : String → Option String,
      executeCoinToss (some g) rv gw oracle lo =
        Except.error "Game is not ready for coin toss") ∧
    (∀ w ∈ (cancelGame (some g)).2, w = g) := by
  refine ⟨?_, ?_, ?_⟩
  · intro p o paid
    rcases h with h | h <;> simp [addPlayerToGame, h]
  · intro rv gw oracle lo
    exact toss_not_waiting g rv gw oracle lo (by rcases h with h | h <;> simp [h])
  · intro w hw
    rcases h with h | h
    · simp [cancelGame, h] at hw
    · simp [cancelGame, h] at hw
      subst hw
      cases g
      simp_all

/-- Witness for C6: the example cancelled wager rejects joins and
resolution. -/
theorem terminal_wager_immutable_witness :
    addPlayerToGame (some exCancelled) "carol" "heads" true =
      (Except.error "Game is not accepting players", []) ∧
    executeCoinToss (some exCancelled) 0 true allCompleted noLink =
      Except.error "Game is not ready for coin toss" :=
  ⟨(terminal_wager_immutable exCancelled (Or.inr rfl)).1 "carol" "heads" true,
   (terminal_wager_immutable exCancelled (Or.inr rfl)).2.1 0 true allCompleted noLink⟩

/-- C9.  On every successful `executeCoinToss` run, the first record passed
to `storage.updateGame` is the input wager with status set to `IN_PROGRESS`
and nothing else changed — in particular its `coinTossResult` and `winner`
are still the pre-toss ones, and the record does not depend on the random
value. -/
theorem inprogress_persisted_before_outcome (g : CoinTossGame) (rv : Nat) (gw : Bool)
    (oracle : String → TransferOutcome) (lo : String → Option String) (r : TossResult)
    (h : executeCoinToss (some g) rv gw oracle lo = Except.ok r) :
    r.stored.head? = some { g with status := GameStatus.IN_PROGRESS } ∧
    ({ g with status := GameStatus.IN_PROGRESS } : CoinTossGame).coinTossResult
        = g.coinTossResult ∧
    ({ g with status := GameStatus.IN_PROGRESS } : CoinTossGame).winner = g.winner := by
  refine ⟨?_, rfl, rfl⟩
  simp only [executeCoinToss] at h
  repeat' split at h
  all_goals cases h
  all_goals simp

/-- The final record of tossing `exGameX` with random value 0: "heads" is
picked and alice wins, but the `NaN` amount makes the payout transfer
return `undefined`, so `paymentSuccess` is false. -/
def exDoneX : CoinTossGame :=
  { exGameX with
    status := GameStatus.COMPLETED
    coinTossResult := "heads"
    winner := some "alice"
    paymentSuccess := false }

/-- The result of tossing `exGameX` (unparseable amount, so the transfer
amount is `none` and the payout fails): alice wins with "heads" picked. -/
def exResultX : TossResult :=
  { stored := [{ exGameX with status := GameStatus.IN_PROGRESS }, exDoneX]
    transferCalls := [("alice", none)]
    game := exDoneX }

/-- Witness for C9: on the concrete run the first stored record is the
`IN_PROGRESS` one. -/
theorem inprogress_persisted_before_outcome_witness :
    executeCoinToss (some exGameX) 0 true allCompleted noLink = Except.ok exResultX ∧
    exResultX.stored.head? = some { exGameX with status := GameStatus.IN_PROGRESS } :=
  ⟨by decide,
   (inprogress_persisted_before_outcome exGameX 0 true allCompleted noLink exResultX
      (by decide)).1⟩

theorem effectiveOptions_irrel (g : CoinTossGame) (s : GameStatus) :
    effectiveOptions { g with status := s } = effectiveOptions g := rfl

/-- C10 (implicit).  A wager that passes the resolution gates but has no
declared (nonempty) `betOptions` and fewer than two distinct participant
choices — including the case of no recorded choices at all — is cancelled
with `paymentSuccess = false`, with no outcome selected, no winner set and
no transfer issued. -/
theorem few_distinct_options_cancelled (g : CoinTossGame) (rv : Nat) (gw : Bool)
    (oracle : String → TransferOutcome) (lo : String → Option String)
    (hst : g.status = GameStatus.WAITING_FOR_PLAYER)
    (hn : 2 ≤ g.participants.length)
    (hbo : g.betOptions = none ∨ g.betOptions = some [])
    (hu : (uniqueOptions g.participantOptions).length < 2) :
    ∃ r, executeCoinToss (some g) rv gw oracle lo = Except.ok r ∧
      r.game.status = GameStatus.CANCELLED ∧
      r.game.paymentSuccess = false ∧
      r.game.winner = g.winner ∧
      r.game.coinTossResult = g.coinTossResult ∧
      r.transferCalls = [] := by
  have heo : effectiveOptions { g with status := GameStatus.IN_PROGRESS }
      = uniqueOptions g.participantOptions := by
    rcases hbo with h | h <;> simp [effectiveOptions, h]
  obtain ⟨r, hr⟩ := toss_ok_of_gates g rv gw oracle lo hst hn
  refine ⟨r, hr, ?_⟩
  simp only [executeCoinToss] at hr
  rw [if_neg (by simp [hst]), if_neg (by omega)] at hr
  split at hr
  · cases hr
    simp
  · split at hr
    · cases hr
      simp
    · split at hr
      · cases hr
        simp
      · rename_i hlt
        rw [heo] at hlt
        omega

/-- Witness game for C10: two players who both chose "yes", no declared
options. -/
def exGameSame : CoinTossGame :=
  { createGame "2" "alice" "3" "0xGAME" 0 with
    status := GameStatus.WAITING_FOR_PLAYER
    participants := ["alice", "bob"]
    participantOptions := [⟨"alice", "yes"⟩, ⟨"bob", "yes"⟩] }

/-- Witness for C10: with both players on "yes" and no declared options the
toss is cancelled without a payout. -/
theorem few_distinct_options_cancelled_witness :
    2 ≤ exGameSame.participants.length ∧
    (uniqueOptions exGameSame.participantOptions).length < 2 ∧
    ∃ r, executeCoinToss (some exGameSame) 7 true allCompleted noLink = Except.ok r ∧
      r.game.status = GameStatus.CANCELLED ∧
      r.game.paymentSuccess = false ∧
      r.game.winner = exGameSame.winner ∧
      r.game.coinTossResult = exGameSame.coinTossResult ∧
      r.transferCalls = [] :=
  ⟨by decide, by decide,
   few_distinct_options_cancelled exGameSame 7 true allCompleted noLink rfl
     (by decide) (Or.inl rfl) (by decide)⟩

/-- C2.  When a wager passes the resolution gates but no participant's
chosen option equals the selected winning outcome (case-insensitively), the
run succeeds with status `CANCELLED`, `paymentSuccess = false`, never
`COMPLETED`, and no transfer is issued. -/
theorem no_winner_cancelled_never_completed (g : CoinTossGame) (rv : Nat) (gw : Bool)
    (oracle : String → TransferOutcome) (lo : String → Option String)
    (hst : g.status = GameStatus.WAITING_FOR_PLAYER)
    (hn : 2 ≤ g.participants.length)
    (hw : ∀ p ∈ g.participantOptions,
      toLowerStr p.option ≠ toLowerStr (pickedOption g rv)) :
    ∃ r, executeCoinToss (some g) rv gw oracle lo = Except.ok r ∧
      r.game.status = GameStatus.CANCELLED ∧
      r.game.paymentSuccess = false ∧
      r.game.status ≠ GameStatus.COMPLETED ∧
      r.transferCalls = [] := by
  have hwz : (winnersOf g (pickedOption g rv)).length = 0 := by
    rw [List.length_eq_zero, winnersOf]
    rw [List.filter_eq_nil_iff]
    intro p hp
    simp [hw p hp]
  obtain ⟨r, hr⟩ := toss_ok_of_gates g rv gw oracle lo hst hn
  refine ⟨r, hr, ?_⟩
  simp only [executeCoinToss] at hr
  rw [if_neg (by simp [hst]), if_neg (by omega)] at hr
  split at hr
  · cases hr
    simp
  · split at hr
    · cases hr
      simp
    · split at hr
      · cases hr
        simp
      · split at hr
        · cases hr
          simp
        · rename_i hwl
          exact absurd hwz hwl

/-- Witness game for C2: both players chose "heads" but random value 1
selects "tails". -/
def exGameNoWin : CoinTossGame :=
  { createGame "3" "alice" "5" "0xGAME" 0 with
    status := GameStatus.WAITING_FOR_PLAYER
    participants := ["alice", "bob"]
    participantOptions := [⟨"alice", "heads"⟩, ⟨"bob", "heads"⟩]
    betOptions := some ["heads", "tails"] }

/-- Witness for C2: nobody chose "tails", so the wager is cancelled. -/
theorem no_winner_cancelled_never_completed_witness :
    ∃ r, executeCoinToss (some exGameNoWin) 1 true allCompleted noLink = Except.ok r ∧
      r.game.status = GameStatus.CANCELLED ∧
      r.game.paymentSuccess = false ∧
      r.game.status ≠ GameStatus.COMPLETED ∧
      r.transferCalls = [] :=
  no_winner_cancelled_never_completed exGameNoWin 1 true allCompleted noLink rfl
    (by decide) (by decide)

/-- The per-winner prize computed by `executeCoinToss` (game.ts lines 248
and 322): `totalPot / winners.length` where
`totalPot = parseFloat(betAmount) * participants.length`. -/
def tossPrize (g : CoinTossGame) (rv : Nat) : Option ℚ :=
  Option.map (fun q => q / ((winnersOf g (pickedOption g rv)).length : ℚ))
    (Option.map (fun q => q * (g.participants.length : ℚ)) (parseDecimal g.betAmount))

/-- The payout-loop state after processing every winner. -/
def payoutFinal (g : CoinTossGame) (rv : Nat) (oracle : String → TransferOutcome)
    (lo : String → Option String) : PayoutState :=
  (winnersOf g (pickedOption g rv)).foldl
    (payoutStep (tossPrize g rv) oracle lo)
    ⟨true, [], [], g.transactionLink⟩

/-- The final record stored by a completed `executeCoinToss` run. -/
def tossFinal (g : CoinTossGame) (rv : Nat) (oracle : String → TransferOutcome)
    (lo : String → Option String) : CoinTossGame :=
  { g with
    status := GameStatus.COMPLETED
    coinTossResult := pickedOption g rv
    winner := some (String.intercalate ","
      ((winnersOf g (pickedOption g rv)).map Participant.userId))
    paymentSuccess := (payoutFinal g rv oracle lo).allOk
    transactionLink := (payoutFinal g rv oracle lo).link }

theorem toss_completed (g : CoinTossGame) (rv : Nat)
    (oracle : String → TransferOutcome) (lo : String → Option String)
    (hst : g.status = GameStatus.WAITING_FOR_PLAYER)
    (hn : 2 ≤ g.participants.length)
    (hopt : 2 ≤ (effectiveOptions g).length)
    (hw : (winnersOf g (pickedOption g rv)).length ≠ 0) :
    executeCoinToss (some g) rv true oracle lo =
      Except.ok
        { stored := [{ g with status := GameStatus.IN_PROGRESS }, tossFinal g rv oracle lo]
          transferCalls := (payoutFinal g rv oracle lo).calls
          game := tossFinal g rv oracle lo } := by
  have hpo : ¬g.participantOptions.length = 0 := by
    intro h0
    apply hw
    have he : g.participantOptions = [] := List.length_eq_zero.mp h0
    simp [winnersOf, he]
  have hol : ¬(effectiveOptions
      ({ g with status := GameStatus.IN_PROGRESS } : CoinTossGame)).length < 2 := by
    rw [effectiveOptions_irrel]
    omega
  simp only [executeCoinToss]
  rw [if_neg (by simp [hst]), if_neg (by omega), if_neg (by omega),
    if_neg hpo, if_neg hol]
  split
  · rename_i h0
    exact absurd h0 hw
  · rw [if_neg (by simp)]
    rfl

theorem payoutStep_calls_sub (prize : Option ℚ) (oracle : String → TransferOutcome)
    (lo : String → Option String) (st : PayoutState) (w : Participant) :
    (payoutStep prize oracle lo st w).calls = st.calls ∨
    (payoutStep prize oracle lo st w).calls = st.calls ++ [(w.userId, prize)] := by
  cases h : oracle w.userId
  all_goals simp only [payoutStep, h]
  case returned wo => split <;> simp
  all_goals simp

theorem payoutFold_amount (prize : Option ℚ) (oracle : String → TransferOutcome)
    (lo : String → Option String) (ws : List Participant) (st : PayoutState)
    (hst : ∀ c ∈ st.calls, c.2 = prize) :
    ∀ c ∈ (ws.foldl (payoutStep prize oracle lo) st).calls, c.2 = prize := by
  induction ws generalizing st with
  | nil => exact hst
  | cons w ws ih =>
    rw [List.foldl_cons]
    apply ih
    intro c hc
    rcases payoutStep_calls_sub prize oracle lo st w with hs | hs
    · rw [hs] at hc
      exact hst c hc
    · rw [hs] at hc
      rcases List.mem_append.mp hc with h1 | h1
      · exact hst c h1
      · simp at h1
        rw [h1]

theorem payoutFold_all_returned_calls (prize : Option ℚ)
    (oracle : String → TransferOutcome) (lo : String → Option String)
    (ws : List Participant) (st : PayoutState)
    (hall : ∀ p ∈ ws, ∃ w, oracle p.userId = TransferOutcome.returned w) :
    (ws.foldl (payoutStep prize oracle lo) st).calls
        = st.calls ++ ws.map (fun p => (p.userId, prize)) := by
  induction ws generalizing st with
  | nil => simp
  | cons w ws ih =>
    obtain ⟨wo, hwo⟩ := hall w (List.mem_cons_self w ws)
    rw [List.foldl_cons, ih _ (fun p hp => hall p (List.mem_cons_of_mem _ hp))]
    simp only [payoutStep, hwo, List.map_cons]
    split
    · simp
    · simp

theorem payoutFold_all_returned_ok (prize : Option ℚ)
    (oracle : String → TransferOutcome) (lo : String → Option String)
    (ws : List Participant) (st : PayoutState)
    (hp : ¬(prize = none ∨ prize = some 0))
    (hall : ∀ p ∈ ws, ∃ w, oracle p.userId = TransferOutcome.returned w) :
    (ws.foldl (payoutStep prize oracle lo) st).allOk = st.allOk := by
  induction ws generalizing st with
  | nil => rfl
  | cons w ws ih =>
    obtain ⟨wo, hwo⟩ := hall w (List.mem_cons_self w ws)
    rw [List.foldl_cons, ih _ (fun p hp2 => hall p (List.mem_cons_of_mem _ hp2))]
    simp only [payoutStep, hwo]
    rw [if_neg hp]

theorem sum_filterMap_const (v : ℚ) (ws : List Participant) :
    ((ws.map (fun p => (p.userId, some v))).filterMap Prod.snd).sum
      = (ws.length : ℚ) * v := by
  induction ws with
  | nil => simp
  | cons w ws ih =>
    simp only [List.map_cons, List.filterMap_cons, List.sum_cons, List.length_cons, ih]
    push_cast
    ring

/-- C1.  On a completed resolution with stake `q`, `n` participants and
`k ≥ 1` winners, every transfer issued is for exactly
`totalPot / k = q * n / k` (the same untruncated value for each winner), and
when every winner's transfer goes through, the amounts issued sum to exactly
`totalPot = q * n`. -/
theorem payout_each_share_and_total (g : CoinTossGame) (q : ℚ) (rv : Nat)
    (oracle : String → TransferOutcome) (lo : String → Option String)
    (hq : parseDecimal g.betAmount = some q)
    (hst : g.status = GameStatus.WAITING_FOR_PLAYER)
    (hn : 2 ≤ g.participants.length)
    (hopt : 2 ≤ (effectiveOptions g).length)
    (hw : (winnersOf g (pickedOption g rv)).length ≠ 0) :
    ∃ r, executeCoinToss (some g) rv true oracle lo = Except.ok r ∧
      r.game.status = GameStatus.COMPLETED ∧
      (∀ c ∈ r.transferCalls,
        c.2 = some (q * (g.participants.length : ℚ) /
          ((winnersOf g (pickedOption g rv)).length : ℚ))) ∧
      ((∀ p ∈ winnersOf g (pickedOption g rv),
          ∃ w, oracle p.userId = TransferOutcome.returned w) →
        (r.transferCalls.filterMap Prod.snd).sum
          = q * (g.participants.length : ℚ)) := by
  have hpz : tossPrize g rv = some (q * (g.participants.length : ℚ) /
      ((winnersOf g (pickedOption g rv)).length : ℚ)) := by
    simp [tossPrize, hq]
  refine ⟨_, toss_completed g rv oracle lo hst hn hopt hw, rfl, ?_, ?_⟩
  · intro c hc
    have h0 : ∀ c2 ∈ (⟨true, [], [], g.transactionLink⟩ : PayoutState).calls,
        c2.2 = tossPrize g rv := by
      intro c2 hc2
      simp at hc2
    have hm := payoutFold_amount (tossPrize g rv) oracle lo
      (winnersOf g (pickedOption g rv)) ⟨true, [], [], g.transactionLink⟩ h0 c hc
    rw [hm, hpz]
  · intro hall
    have hcalls := payoutFold_all_returned_calls (tossPrize g rv) oracle lo
      (winnersOf g (pickedOption g rv)) ⟨true, [], [], g.transactionLink⟩ hall
    show (((payoutFinal g rv oracle lo).calls).filterMap Prod.snd).sum = _
    simp only [payoutFinal]
    rw [hcalls]
    simp only [List.nil_append]
    rw [hpz, sum_filterMap_const]
    have hk : ((winnersOf g (pickedOption g rv)).length : ℚ) ≠ 0 :=
      Nat.cast_ne_zero.mpr hw
    field_simp

/-- Witness for C1: stake "5", two participants, one winner — the single
transfer is for 10 and the amounts sum to 10. -/
theorem payout_each_share_and_total_witness :
    ∃ r, executeCoinToss (some exGame) 0 true allCompleted noLink = Except.ok r ∧
      r.game.status = GameStatus.COMPLETED ∧
      (∀ c ∈ r.transferCalls,
        c.2 = some ((5 : ℚ) * (exGame.participants.length : ℚ) /
          ((winnersOf exGame (pickedOption exGame 0)).length : ℚ))) ∧
      ((∀ p ∈ winnersOf exGame (pickedOption exGame 0),
          ∃ w, allCompleted p.userId = TransferOutcome.returned w) →
        (r.transferCalls.filterMap Prod.snd).sum
          = (5 : ℚ) * (exGame.participants.length : ℚ)) :=
  payout_each_share_and_total exGame 5 0 allCompleted noLink
    (by simp +decide [parseDecimal, splitOnDot, decDigits])
    rfl (by decide) (by decide) (by decide)

/-- Counterexample for C8: at stake "5" (totalPot 10, one winner, transfer
amount 10 — truthy, so the transfer is created), a run in which the winner
transfer's `wait()` TIMES OUT still completes with `paymentSuccess = true` —
the timed-out transfer is counted as a success, not recorded as a failure. -/
theorem timeout_recorded_as_success_cex :
    (match executeCoinToss (some exGame) 0 true allTimedOut noLink with
     | Except.ok r => some r.game.paymentSuccess
     | Except.error _ => none) = some true := by
  have hq : parseDecimal exGame.betAmount = some 5 := by
    simp +decide [parseDecimal, splitOnDot, decDigits]
  have hw : (winnersOf exGame (pickedOption exGame 0)).length ≠ 0 := by decide
  have hk : ((winnersOf exGame (pickedOption exGame 0)).length : ℚ) ≠ 0 :=
    Nat.cast_ne_zero.mpr hw
  have hn0 : ((exGame.participants.length : ℚ)) ≠ 0 :=
    Nat.cast_ne_zero.mpr (by decide)
  have hpz : tossPrize exGame 0 = some ((5 : ℚ) * (exGame.participants.length : ℚ) /
      ((winnersOf exGame (pickedOption exGame 0)).length : ℚ)) := by
    simp [tossPrize, hq]
  have hp : ¬(tossPrize exGame 0 = none ∨ tossPrize exGame 0 = some 0) := by
    rw [hpz]
    rintro (h | h)
    · exact Option.noConfusion h
    · rw [Option.some.injEq] at h
      exact div_ne_zero (mul_ne_zero (by norm_num) hn0) hk h
  have hok : (payoutFinal exGame 0 allTimedOut noLink).allOk = true :=
    payoutFold_all_returned_ok (tossPrize exGame 0) allTimedOut noLink
      (winnersOf exGame (pickedOption exGame 0)) ⟨true, [], [], exGame.transactionLink⟩
      hp (fun p _ => ⟨WaitOutcome.timedOut, rfl⟩)
  rw [toss_completed exGame 0 allTimedOut noLink rfl (by decide) (by decide) hw]
  show some (tossFinal exGame 0 allTimedOut noLink).paymentSuccess = some true
  simp only [tossFinal]
  rw [hok]

/-- C8 (amended).  A transfer whose confirmation wait times out is treated
as "payment may still complete": `walletService.transfer` still returns the
transfer object, and the engine counts it as a SUCCESS for accounting — for
a resolution with a parseable nonzero stake (so the per-winner amount
passes the falsy-amount guard and transfers are actually created), if every
winner's transfer call returns an object, whatever its wait outcome
(completed or timed out), the completed wager records
`paymentSuccess = true`. -/
theorem timeout_counted_as_success (g : CoinTossGame) (q : ℚ) (rv : Nat)
    (oracle : String → TransferOutcome) (lo : String → Option String)
    (hq : parseDecimal g.betAmount = some q)
    (hq0 : q ≠ 0)
    (hst : g.status = GameStatus.WAITING_FOR_PLAYER)
    (hn : 2 ≤ g.participants.length)
    (hopt : 2 ≤ (effectiveOptions g).length)
    (hw : (winnersOf g (pickedOption g rv)).length ≠ 0)
    (hall : ∀ p ∈ winnersOf g (pickedOption g rv),
      ∃ w, oracle p.userId = TransferOutcome.returned w) :
    ∃ r, executeCoinToss (some g) rv true oracle lo = Except.ok r ∧
      r.game.status = GameStatus.COMPLETED ∧
      r.game.paymentSuccess = true := by
  have hk : ((winnersOf g (pickedOption g rv)).length : ℚ) ≠ 0 :=
    Nat.cast_ne_zero.mpr hw
  have hn0 : ((g.participants.length : ℚ)) ≠ 0 :=
    Nat.cast_ne_zero.mpr (by omega)
  have hpz : tossPrize g rv = some (q * (g.participants.length : ℚ) /
      ((winnersOf g (pickedOption g rv)).length : ℚ)) := by
    simp [tossPrize, hq]
  have hp : ¬(tossPrize g rv = none ∨ tossPrize g rv = some 0) := by
    rw [hpz]
    rintro (h | h)
    · exact Option.noConfusion h
    · rw [Option.some.injEq] at h
      exact div_ne_zero (mul_ne_zero hq0 hn0) hk h
  refine ⟨_, toss_completed g rv oracle lo hst hn hopt hw, rfl, ?_⟩
  show (tossFinal g rv oracle lo).paymentSuccess = true
  simp only [tossFinal, payoutFinal]
  exact payoutFold_all_returned_ok (tossPrize g rv) oracle lo
    (winnersOf g (pickedOption g rv)) ⟨true, [], [], g.transactionLink⟩ hp hall

/-- Witness for C8's amended claim: stake "5", every transfer wait times
out, yet the completed wager records `paymentSuccess = true`. -/
theorem timeout_counted_as_success_witness :
    ∃ r, executeCoinToss (some exGame) 0 true allTimedOut noLink = Except.ok r ∧
      r.game.status = GameStatus.COMPLETED ∧
      r.game.paymentSuccess = true :=
  timeout_counted_as_success exGame 5 0 allTimedOut noLink
    (by simp +decide [parseDecimal, splitOnDot, decDigits]) (by norm_num)
    rfl (by decide) (by decide) (by decide)
    (fun p _ => ⟨WaitOutcome.timedOut, rfl⟩)

/-- The spec's words for C7 (refinement comparison, not source code): the
largest numeric id among the given wagers. -/
def maxNumericId (games : List CoinTossGame) : Nat :=
  (games.filterMap (fun g => parseIntOpt g.id)).foldr max 0

/-- A stored wager with numeric id 5 that is already COMPLETED. -/
def exStored5 : CoinTossGame :=
  { createGame "5" "carol" "2" "0xG5" 0 with status := GameStatus.COMPLETED }

/-- Counterexample for C7: with storage holding only a COMPLETED wager of id
"5", the engine's first assigned id is "1", not "6" — the initialisation
folds over `listActiveGames`, which drops COMPLETED/CANCELLED wagers, so the
new id is NOT one plus the largest numeric id among all known wagers. -/
theorem id_not_succ_of_all_known_max :
    sourceFirstId [exStored5] = "1" ∧
    specFirstIdAllWagers [exStored5] = "6" ∧
    sourceFirstId [exStored5] ≠ specFirstIdAllWagers [exStored5] :=
  ⟨by decide, by decide, by decide⟩

theorem foldl_max_acc (games : List CoinTossGame) (a : Nat) :
    games.foldl (fun maxId g => match parseIntOpt g.id with
      | none => maxId
      | some id => max maxId id) a = max a (maxNumericId games) := by
  induction games generalizing a with
  | nil => simp [maxNumericId]
  | cons g gs ih =>
    rw [List.foldl_cons]
    cases h : parseIntOpt g.id with
    | none =>
      rw [ih]
      simp only [maxNumericId, List.filterMap_cons, h]
    | some v =>
      rw [ih]
      simp only [maxNumericId, List.filterMap_cons, h, List.foldr_cons]
      rw [Nat.max_assoc]

/-- C7 (amended).  Ids are assigned sequentially per process, but the
initial counter is the maximum numeric id among the ACTIVE wagers only —
wagers whose status is COMPLETED or CANCELLED are excluded by
`listActiveGames`, so their ids can be reassigned by a fresh process. -/
theorem id_sequential_from_active_max (storage : List CoinTossGame) (lastId : Nat) :
    initLastGameId (listActiveGames storage)
        = maxNumericId (listActiveGames storage) ∧
    getNextGameId lastId = (lastId + 1, toString (lastId + 1)) := by
  constructor
  · have h := foldl_max_acc (listActiveGames storage) 0
    simpa [initLastGameId] using h
  · rfl

/-- Witness for C7's amended claim, at the concrete one-wager storage. -/
theorem id_sequential_from_active_max_witness :
    initLastGameId (listActiveGames [exStored5])
        = maxNumericId (listActiveGames [exStored5]) ∧
    getNextGameId 0 = (1, "1") :=
  id_sequential_from_active_max [exStored5] 0

theorem addPlayer_ok_shape (g g2 : CoinTossGame) (p o : String) (paid : Bool)
    (h : (addPlayerToGame (some g) p o paid).1 = Except.ok g2) :
    g2.participants = g.participants ++ [p] ∧
    g2.participantOptions = g.participantOptions ++ [⟨p, o⟩] ∧
    p ∉ g.participants := by
  simp only [addPlayerToGame] at h
  repeat' split at h
  all_goals cases h
  all_goals simp_all

/-- The wager records the engine can ever pass to `storage.saveGame` or
`storage.updateGame`: those built by `createGame`, enriched by
`createGameFromPrompt`, and those written by `addPlayerToGame`,
`executeCoinToss` and `cancelGame`. -/
inductive Reachable : CoinTossGame → Prop
  | create (gameId creator betAmount walletAddress : String) (now : Nat) :
      Reachable (createGame gameId creator betAmount walletAddress now)
  | fromPrompt (g : CoinTossGame) (topic : String) (opts : List String) :
      Reachable g →
      Reachable { g with betTopic := some topic, betOptions := some opts }
  | join (g g2 : CoinTossGame) (p o : String) (paid : Bool) :
      Reachable g →
      addPlayerToGame (some g) p o paid = (Except.ok g2, [g2]) →
      Reachable g2
  | toss (g : CoinTossGame) (rv : Nat) (gw : Bool)
      (oracle : String → TransferOutcome) (lo : String → Option String)
      (r : TossResult) (s : CoinTossGame) :
      Reachable g →
      executeCoinToss (some g) rv gw oracle lo = Except.ok r →
      s ∈ r.stored →
      Reachable s
  | cancel (g s : CoinTossGame) :
      Reachable g →
      s ∈ (cancelGame (some g)).2 →
      Reachable s

/-- C5.  Every reachable wager record has duplicate-free participants and
exactly one recorded choice per participant (`participantOptions` projects
onto `participants`, so neither side has orphans); and a join attempt by a
participant who already joined (on a wager still accepting players) fails
with the duplicate-participant error and writes nothing. -/
theorem participants_nodup_choices_aligned :
    (∀ g : CoinTossGame, Reachable g →
      g.participants.Nodup ∧
      g.participantOptions.map Participant.userId = g.participants) ∧
    (∀ g : CoinTossGame, ∀ p o : String, ∀ paid : Bool,
      (g.status = GameStatus.CREATED ∨ g.status = GameStatus.WAITING_FOR_PLAYER) →
      p ∈ g.participants →
      addPlayerToGame (some g) p o paid =
        (Except.error "You are already in this game", [])) ∧
    (∀ g : CoinTossGame, ∀ p o : String, ∀ paid : Bool, p ∈ g.participants →
      ∃ e, addPlayerToGame (some g) p o paid = (Except.error e, [])) := by
  refine ⟨?_, ?_, ?_⟩
  · intro g hg
    induction hg with
    | create gameId creator betAmount walletAddress now => simp [createGame]
    | fromPrompt g topic opts hr ih => simpa using ih
    | join g g2 p o paid hr hjoin ih =>
      obtain ⟨h1, h2, h3⟩ := addPlayer_ok_shape g g2 p o paid (by rw [hjoin])
      constructor
      · rw [h1]
        simp [List.nodup_append, ih.1, h3]
      · rw [h2, List.map_append, ih.2, h1]
        simp
    | toss g rv gw oracle lo r s hr htoss hmem ih =>
      obtain ⟨hall, _, _⟩ := toss_preserves_participants g rv gw oracle lo r htoss
      obtain ⟨h1, h2⟩ := hall s hmem
      rw [h1, h2]
      exact ih
    | cancel g s hr hmem ih =>
      by_cases hC : g.status = GameStatus.COMPLETED
      · simp [cancelGame, hC] at hmem
      · simp [cancelGame, hC] at hmem
        rw [hmem]
        simpa using ih
  · intro g p o paid hacc hp
    have hnot : ¬(g.status ≠ GameStatus.CREATED ∧
        g.status ≠ GameStatus.WAITING_FOR_PLAYER) := by
      rcases hacc with h | h <;> simp [h]
    simp only [addPlayerToGame]
    rw [if_neg hnot, if_pos hp]
  · intro g p o paid hp
    rcases addPlayer_shape (some g) p o paid with ⟨e, he⟩ | ⟨g2, hg⟩
    · exact ⟨e, he⟩
    · obtain ⟨_, _, h3⟩ := addPlayer_ok_shape g g2 p o paid (by rw [hg])
      exact absurd hp h3

/-- A wager created from a prompt, for the C5 reachability witness. -/
def exBase : CoinTossGame :=
  { createGame "1" "alice" "5" "0xGAME" 0 with
    betTopic := some "coin flip", betOptions := some ["heads", "tails"] }

/-- `exBase` after alice joins with "heads". -/
def exJoin1 : CoinTossGame :=
  { exBase with
    status := GameStatus.WAITING_FOR_PLAYER
    participants := ["alice"]
    participantOptions := [⟨"alice", "heads"⟩] }

/-- `exJoin1` after bob joins with "tails". -/
def exJoin2 : CoinTossGame :=
  { exJoin1 with
    participants := ["alice", "bob"]
    participantOptions := [⟨"alice", "heads"⟩, ⟨"bob", "tails"⟩] }

theorem exJoin2_reachable : Reachable exJoin2 :=
  Reachable.join exJoin1 exJoin2 "bob" "tails" true
    (Reachable.join exBase exJoin1 "alice" "heads" true
      (Reachable.fromPrompt (createGame "1" "alice" "5" "0xGAME" 0) "coin flip"
        ["heads", "tails"] (Reachable.create "1" "alice" "5" "0xGAME" 0))
      (by decide))
    (by decide)

/-- Witness for C5: a wager created and joined twice is well-formed, and a
player who already joined is rejected with no write. -/
theorem participants_nodup_choices_aligned_witness :
    exJoin2.participants.Nodup ∧
    exJoin2.participantOptions.map Participant.userId = exJoin2.participants ∧
    addPlayerToGame (some exJoin2) "alice" "heads" true =
      (Except.error "You are already in this game", []) :=
  ⟨((participants_nodup_choices_aligned).1 exJoin2 exJoin2_reachable).1,
   ((participants_nodup_choices_aligned).1 exJoin2 exJoin2_reachable).2,
   (participants_nodup_choices_aligned).2.1 exJoin2 "alice" "heads" true
     (Or.inr rfl) (by decide)⟩
